import Mathlib

/-!
# Verification development for the notary-backend repository

Shallow embedding of the parts of the `notary-backend` code base that the
frozen claims speak about, together with theorems settling each claim.

Each definition is translated from one Python source location, named after it,
and kept executable so that theorems can be checked on concrete inputs.

The embedded components are:
* `DocumentService._replace_placeholders` (app/services/document_service.py),
* `DocumentService.create_document` together with the marshmallow dump shapes
  of `TemplateSchema`, `TemplateSectionSchema` and
  `TemplateSectionCompositionSchema`,
* `AIAgentConfigurationService` (create/update/delete) over a list-of-rows
  database state whose commits are checked against the constraints declared on
  the `ai_agent_configurations` table,
* `TemplateSectionCompositionRepository`/`...Service` with the declared
  `(template_id, order_index)` unique constraint and composite primary key,
* `AudioProcessor._split_audio_for_whisper` and
  `transcribe_audio_with_whisper` (app/utils/audio_processor.py),
* the `/oidc_callback` Flask view (app/__init__.py),
* the `POST /api/transcribe` controller and
  `TranscribeService.transcribe_audio` (app/controllers/transcribe_controller.py,
  app/services/transcribe_service.py).
-/

namespace NotaryBackend

/-! ## Placeholder substitution: `DocumentService._replace_placeholders`

The Python code substitutes `re.sub(r"\x7b\x7b([^}]+)\x7d\x7d", replace_match, content)`
where `replace_match` looks the captured group up in
`sanitized_data = \x7bstr(k): str(v) for k, v in data.items()\x7d` and falls back to the
full matched span when the key is absent.

The regex matches a literal `{{`, then a maximal nonempty run of characters
other than `}` (greedy `[^}]+`; shrinking the run cannot help because the
character after a shorter run is still not `}`), then a literal `}}`.  The
scanner below walks the character list left to right exactly as `re.sub` does:
at each position it tries to match, emits the replacement (or the original
span, when the key is unknown) and resumes after the match, otherwise emits
one character and moves on.  Recursion is driven by a fuel argument that
starts at the length of the input; every recursive call consumes at least one
input character per unit of fuel, so the fuel never runs out on real calls. -/

/-- One JSON-ish scalar value as found in `dynamic_data` maps and in
marshmallow dump dictionaries. -/
inductive JVal where
  | s (v : String)
  | i (v : Int)
  | b (v : Bool)
  | null
  deriving DecidableEq, Repr

/-- Python `str()` on a scalar value, as applied by
`sanitized_data = \x7bstr(k): str(v) ...\x7d`. -/
def pyStr : JVal → String
  | .s v => v
  | .i v => toString v
  | .b true => "True"
  | .b false => "False"
  | .null => "None"

/-- Lookup in the sanitized data map (`sanitized_data.get(key, ...)`).
Keys originate from a Python dict and are therefore distinct. -/
def lookupStr (data : List (String × String)) (k : String) : Option String :=
  (data.find? (fun p => p.1 == k)).map (·.2)

/-- The regex-match attempt at the current position: two literal `{`, then
`[^}]+` (the maximal nonempty run of non-`}` characters — shrinking the
greedy run cannot help, because the character after any shorter run is still
not `}`), then two literal `}`.  On success, returns the captured group and
the characters after the match. -/
def matchPlaceholder : List Char → Option (List Char × List Char)
  | c1 :: c2 :: rest =>
      if c1 = '{' ∧ c2 = '{' then
        match rest.takeWhile (fun c => c ≠ '}'), rest.dropWhile (fun c => c ≠ '}') with
        | x :: xs, d1 :: d2 :: rest2 =>
            if d1 = '}' ∧ d2 = '}' then some (x :: xs, rest2) else none
        | _, _ => none
      else none
  | _ => none

/-- The left-to-right `re.sub` scan over the character list: at each position
try to match the placeholder regex; on a match emit the looked-up value (or
the original span when the key is unknown) and resume after the match,
otherwise emit one character and move on.  `fuel` bounds the recursion;
`substChars data l.length l` computes the substitution (each unit of fuel
consumes at least one input character). -/
def substChars (data : List (String × String)) : Nat → List Char → List Char
  | 0, l => l
  | _ + 1, [] => []
  | fuel + 1, c :: cs =>
      match matchPlaceholder (c :: cs) with
      | some (key, rest2) =>
          (match lookupStr data (String.mk key) with
           | some v => v.data
           | none => '{' :: '{' :: (key ++ ['}', '}'])) ++ substChars data fuel rest2
      | none => c :: substChars data fuel cs

/-- `DocumentService._replace_placeholders(content, data)`. -/
def replace_placeholders (content : String) (data : List (String × JVal)) : String :=
  let sanitized_data := data.map (fun p => (p.1, pyStr p.2))
  String.mk (substChars sanitized_data content.data.length content.data)

/-! ## Audio chunking: `AudioProcessor._split_audio_for_whisper`

`pydub`'s `len(audio)` is the duration in milliseconds and `audio[i:i+s]` is
the slice of at most `s` milliseconds starting at `i`.  A chunk is modelled by
its `(start, length)` pair in milliseconds.  `range(0, stop, step)` is
embedded with a fuel argument (`stop` units always suffice for a positive
step, because each iteration advances `start` by at least one). -/

/-- Python `range(start, stop, step)` for a non-negative step, fuel-driven.
An empty list is returned when the fuel runs out or the step is zero; callers
pass `stop` as fuel, which is enough whenever `step > 0`. -/
def pyRangeAux : Nat → Nat → Nat → Nat → List Nat
  | 0, _, _, _ => []
  | fuel + 1, start, stop, step =>
      if start < stop ∧ 0 < step then start :: pyRangeAux fuel (start + step) stop step
      else []

/-- Python `range(0, stop, step)`. -/
def pyRange (stop step : Nat) : List Nat := pyRangeAux stop 0 stop step

/-- An audio chunk: start offset and length, both in milliseconds. -/
abbrev AudioChunk := Nat × Nat

/-- `AudioProcessor._split_audio_for_whisper` on an audio that decoded to
`duration_ms` milliseconds, with the configured `segment_duration_ms`.
Returns the exported chunks, or the "empty audio" error. -/
def split_audio_for_whisper (duration_ms segment_duration_ms : Nat) :
    Except String (List AudioChunk) :=
  let processed_segments : List AudioChunk :=
    if duration_ms > segment_duration_ms then
      (pyRange duration_ms segment_duration_ms).map
        (fun i => (i, min (i + segment_duration_ms) duration_ms - i))
    else
      [(0, duration_ms)]
  if processed_segments = [] ∧ duration_ms = 0 then
    .error "El archivo de audio está vacío o no contiene segmentos válidos."
  else
    .ok processed_segments

/-- `AudioProcessor.transcribe_audio_with_whisper`: split, transcribe each
chunk through the abstract speech API `whisper`, join with single spaces. -/
def transcribe_audio_with_whisper (duration_ms segment_duration_ms : Nat)
    (whisper : AudioChunk → String) : Except String String :=
  match split_audio_for_whisper duration_ms segment_duration_ms with
  | .error e => .error e
  | .ok audio_segments => .ok (String.intercalate " " (audio_segments.map whisper))

/-! ## Document assembly: `DocumentService.create_document`

The document service works on *serialized* rows: `TemplateService`,
`TemplateSectionCompositionService` and `TemplateSectionService` each return
`schema.dump(row)`, a Python dict whose keys are exactly the fields declared
on the corresponding marshmallow schema (fields whose attribute is missing on
the ORM row are omitted from the dump).  Dicts are modelled as association
lists with `String` keys and `JVal` values; UUID values are carried as `.i`. -/

/-- A marshmallow dump result / Python dict. -/
abbrev PyDict := List (String × JVal)

/-- Python `d.get(k)`: `none` models `None`. -/
def dictGet (d : PyDict) (k : String) : Option JVal :=
  (d.find? (fun p => p.1 == k)).map (·.2)

/-- Python `d.get(k, default)` where the field, when present, is a string. -/
def dictGetStrD (d : PyDict) (k : String) (dflt : String) : String :=
  match dictGet d k with
  | some (.s v) => v
  | _ => dflt

/-- Python truthiness of an optional value (`if section_id:`). -/
def pyTruthy : Option JVal → Bool
  | none => false
  | some .null => false
  | some (.s v) => v ≠ ""
  | some (.i v) => v ≠ 0
  | some (.b v) => v

/-- `templates` row (app/models/template.py); timestamps are abstract ticks. -/
structure Template where
  template_id : Nat
  template_name : String
  description : Option String
  document_type_id : Option Nat
  is_active : Bool
  created_by : Option Nat
  created_at : Nat
  updated_at : Nat
  deriving DecidableEq, Repr

/-- `TemplateSchema().dump(t)` (app/schemas/template_schema.py): exactly the
schema's declared fields — there is no `base_content` field. -/
def templateDump (t : Template) : PyDict :=
  [ ("template_id", .i t.template_id)
  , ("template_name", .s t.template_name)
  , ("description", t.description.elim .null .s)
  , ("document_type_id", t.document_type_id.elim .null (fun v => .i v))
  , ("is_active", .b t.is_active)
  , ("created_by", t.created_by.elim .null (fun v => .i v))
  , ("created_at", .i t.created_at)
  , ("updated_at", .i t.updated_at) ]

/-- `template_sections` row (app/models/template_section.py). -/
structure TemplateSection where
  section_id : Nat
  section_name : String
  section_content_template : String
  variables_schema : JVal
  description : Option String
  deriving DecidableEq, Repr

/-- `TemplateSectionSchema().dump(s)` (app/schemas/template_section.py, the
marshmallow family used by `TemplateSectionService`).  The schema also
declares `created_at`/`updated_at`, but the ORM model has no such columns, so
those attributes are missing and the dump omits them.  No `content` key. -/
def sectionDump (s : TemplateSection) : PyDict :=
  [ ("section_id", .i s.section_id)
  , ("section_name", .s s.section_name)
  , ("section_content_template", .s s.section_content_template)
  , ("variables_schema", s.variables_schema)
  , ("description", s.description.elim .null .s) ]

/-- `template_sections_composition` row
(app/models/template_section_composition.py). -/
structure TemplateSectionComposition where
  template_id : Nat
  section_id : Nat
  order_index : Int
  is_mandatory : Bool
  deriving DecidableEq, Repr

/-- `TemplateSectionCompositionSchema().dump(c)`
(app/schemas/template_section_composition.py): the key for the section
reference is `section_id`; the schema declares `created_at` but the model has
no such column, so the dump omits it.  No `template_section_id` key. -/
def compositionDump (c : TemplateSectionComposition) : PyDict :=
  [ ("template_id", .i c.template_id)
  , ("section_id", .i c.section_id)
  , ("order_index", .i c.order_index)
  , ("is_mandatory", .b c.is_mandatory) ]

/-- The relational state the document service reads. -/
structure NotaryDB where
  templates : List Template
  sections : List TemplateSection
  compositions : List TemplateSectionComposition
  deriving Repr

/-- `TemplateService.get_template_by_id`. -/
def get_template_by_id (db : NotaryDB) (template_id : Nat) : Option PyDict :=
  (db.templates.find? (fun t => t.template_id == template_id)).map templateDump

/-- `TemplateSectionService.get_template_section_by_id`. -/
def get_template_section_by_id (db : NotaryDB) (section_id : Nat) : Option PyDict :=
  (db.sections.find? (fun s => s.section_id == section_id)).map sectionDump

/-- Stable insertion of a row into a list sorted by `order_index`
(used to model the repository's `ORDER BY order_index`). -/
def insertByOrderIndex (c : TemplateSectionComposition) :
    List TemplateSectionComposition → List TemplateSectionComposition
  | [] => [c]
  | x :: xs =>
      if x.order_index ≤ c.order_index then x :: insertByOrderIndex c xs
      else c :: x :: xs

/-- Stable sort by `order_index` (the repository's `ORDER BY`). -/
def sortByOrderIndex : List TemplateSectionComposition → List TemplateSectionComposition
  | [] => []
  | x :: xs => insertByOrderIndex x (sortByOrderIndex xs)

/-- `TemplateSectionCompositionService.get_compositions_by_template_id`:
filter by template, order by `order_index`, dump each row. -/
def get_compositions_by_template_id (db : NotaryDB) (template_id : Nat) : List PyDict :=
  (sortByOrderIndex (db.compositions.filter (fun c => c.template_id == template_id))).map
    compositionDump

/-- Sort key used by `sorted(section_compositions, key=lambda x: x.get("order_index", 0))`. -/
def dumpOrderKey (d : PyDict) : Int :=
  match dictGet d "order_index" with
  | some (.i v) => v
  | _ => 0

/-- Stable insertion for Python's `sorted` over composition dumps. -/
def insertByDumpKey (d : PyDict) : List PyDict → List PyDict
  | [] => [d]
  | x :: xs =>
      if dumpOrderKey x ≤ dumpOrderKey d then x :: insertByDumpKey d xs
      else d :: x :: xs

/-- Python's stable `sorted(..., key=lambda x: x.get("order_index", 0))`. -/
def pySortedByOrderKey : List PyDict → List PyDict
  | [] => []
  | x :: xs => insertByDumpKey x (pySortedByOrderKey xs)

/-- The validated create payload (`DocumentCreateSchema` fields,
app/schemas/document_schema.py).  Required fields are carried directly;
`dynamic_data` is an arbitrary JSON map (`fields.Raw`). -/
structure DocumentCreateData where
  document_name : String
  document_type_id : Nat
  template_id : Nat
  dynamic_data : List (String × JVal)
  created_by : Option Nat
  deriving DecidableEq, Repr

/-- `DocumentCreateSchema().validate`: the remaining value-level rule on an
already well-shaped payload is `Length(min=1, max=255)` on `document_name`. -/
def documentCreateValid (d : DocumentCreateData) : Bool :=
  1 ≤ d.document_name.length && d.document_name.length ≤ 255

/-- The persisted `documents` row produced by `create_document`. -/
structure Document where
  document_name : String
  document_type_id : Nat
  template_id : Nat
  text_content : String
  pdf_url : Option String
  dynamic_data : List (String × JVal)
  created_by : Option Nat
  deriving DecidableEq, Repr

/-- Failure modes of `create_document` (both raised as `ValueError`). -/
inductive DocError where
  | invalidInput
  | templateNotFound
  deriving DecidableEq, Repr

/-- One iteration of the assembly loop of `create_document`
(`for composition_data in sorted_compositions: ...`). -/
def appendSection (db : NotaryDB) (combined : String) (composition_data : PyDict) : String :=
  let section_id := dictGet composition_data "template_section_id"
  if pyTruthy section_id then
    match section_id with
    | some (.i sid) =>
        -- identifiers are embedded as naturals wrapped in `.i`
        match get_template_section_by_id db sid.toNat with
        | some sectionDict =>
            (if combined ≠ "" then combined ++ "\n" else combined) ++
              dictGetStrD sectionDict "content" ""
        | none => combined
    | _ => combined
  else combined

/-- `DocumentService.create_document` (app/services/document_service.py,
lines 50–133): validate, load the template dump, start from
`template.get("base_content", "")`, walk the sorted composition dumps reading
`composition_data.get("template_section_id")`, substitute placeholders, and
persist the document row with `pdf_url = None`. -/
def create_document (db : NotaryDB) (document_data : DocumentCreateData) :
    Except DocError Document :=
  if ¬ documentCreateValid document_data then .error .invalidInput
  else
    match get_template_by_id db document_data.template_id with
    | none => .error .templateNotFound
    | some template =>
        let combined_start := dictGetStrD template "base_content" ""
        let section_compositions :=
          get_compositions_by_template_id db document_data.template_id
        let sorted_compositions := pySortedByOrderKey section_compositions
        let combined_text_content :=
          sorted_compositions.foldl (appendSection db) combined_start
        let final_text_content :=
          replace_placeholders combined_text_content document_data.dynamic_data
        .ok
          { document_name := document_data.document_name
          , document_type_id := document_data.document_type_id
          , template_id := document_data.template_id
          , text_content := final_text_content
          , pdf_url := none
          , dynamic_data := document_data.dynamic_data
          , created_by := document_data.created_by }

/-! ## AI agent configurations: `AIAgentConfigurationService`

The service mutates `ai_agent_configurations` rows through a SQLAlchemy
session; every mutation ends in a `commit()`.  The table declares (model
`AIAgentConfiguration`, app/models/ai_agent_configuration.py):
a primary key on `agent_id`, `UNIQUE` on `agent_name`, and a deferrable
`ExcludeConstraint` on `is_default` restricted to rows `WHERE is_default`,
i.e. at most one row may have `is_default = TRUE`.  Deferred constraints are
checked when a transaction commits, so a commit whose resulting table state
violates one fails and the transaction is rolled back (the session then holds
the last committed state again); the surrounding Python code sees the raised
error.  `dbCommit` models exactly that. -/

/-- An `ai_agent_configurations` row, with the columns the embedded services
read (`config_json` is reduced to the one key the transcription service looks
up). -/
structure Agent where
  agent_id : Nat
  agent_name : String
  provider : String
  model_name : String
  config_segment_duration_ms : Option Nat
  is_active : Bool
  is_default : Bool
  deriving DecidableEq, Repr

/-- The committed table state. -/
abbrev AgentsDB := List Agent

/-- No two rows share a value of `key` (list-level uniqueness check). -/
def nodupBy (key : Agent → Nat) : AgentsDB → Bool
  | [] => true
  | a :: t => t.all (fun b => key b != key a) && nodupBy key t

/-- No two rows share an `agent_name`. -/
def namesNodup : AgentsDB → Bool
  | [] => true
  | a :: t => t.all (fun b => b.agent_name != a.agent_name) && namesNodup t

/-- The table constraints checked at commit time: primary key on `agent_id`,
`UNIQUE (agent_name)`, and the `idx_ai_agent_configurations_one_default_agent`
exclusion constraint (at most one row with `is_default = TRUE`). -/
def agentConstraintsOk (s : AgentsDB) : Bool :=
  nodupBy Agent.agent_id s && namesNodup s &&
    (s.countP (fun a => a.is_default)) ≤ 1

/-- Errors surfaced by the agent service/repository. -/
inductive AgentError where
  | integrityError           -- a commit violated a table constraint
  | cannotUnsetOnlyDefault   -- `ValueError` from `update_agent`
  | cannotDeleteOnlyDefault  -- `ValueError` from `delete_agent`
  deriving DecidableEq, Repr

/-- `session.commit()`: `old` is the last committed state (the rollback
target), `candidate` is the state the pending changes would produce. -/
def dbCommit (old candidate : AgentsDB) : AgentsDB × Option AgentError :=
  if agentConstraintsOk candidate then (candidate, none)
  else (old, some .integrityError)

/-- `AIAgentConfigurationRepository.get_by_id` (`filter_by(agent_id=...)`, first). -/
def agentById (s : AgentsDB) (agent_id : Nat) : Option Agent :=
  s.find? (fun a => a.agent_id == agent_id)

/-- `AIAgentConfigurationRepository.unset_all_defaults`: clear `is_default`
on every currently-default row, then commit. -/
def unset_all_defaults (s : AgentsDB) : AgentsDB × Option AgentError :=
  dbCommit s (s.map (fun a => if a.is_default then { a with is_default := false } else a))

/-- The payload of `AIAgentConfigurationRepository.create`: column values,
with `is_active`/`is_default` falling back to the column defaults. -/
structure AgentCreateData where
  agent_id : Nat
  agent_name : String
  provider : String
  model_name : String
  config_segment_duration_ms : Option Nat
  is_active : Option Bool
  is_default : Option Bool
  deriving DecidableEq, Repr

/-- `AIAgentConfiguration(**agent_data)` with the column defaults
`is_active=True`, `is_default=False`. -/
def AgentCreateData.toRow (d : AgentCreateData) : Agent :=
  { agent_id := d.agent_id
  , agent_name := d.agent_name
  , provider := d.provider
  , model_name := d.model_name
  , config_segment_duration_ms := d.config_segment_duration_ms
  , is_active := d.is_active.getD true
  , is_default := d.is_default.getD false }

/-- `AIAgentConfigurationRepository.create`: insert and commit; on failure
roll back and re-raise. -/
def repoCreateAgent (s : AgentsDB) (d : AgentCreateData) : AgentsDB × Option AgentError :=
  dbCommit s (s ++ [d.toRow])

/-- The patch dict accepted by `update_agent`: present keys are applied with
`setattr`, absent keys leave the column unchanged. -/
structure AgentPatch where
  agent_name : Option String := none
  provider : Option String := none
  model_name : Option String := none
  config_segment_duration_ms : Option (Option Nat) := none
  is_active : Option Bool := none
  is_default : Option Bool := none
  deriving DecidableEq, Repr

/-- Apply the patch's present keys to a row (the repository's `setattr` loop). -/
def applyAgentPatch (a : Agent) (p : AgentPatch) : Agent :=
  { a with
      agent_name := p.agent_name.getD a.agent_name
    , provider := p.provider.getD a.provider
    , model_name := p.model_name.getD a.model_name
    , config_segment_duration_ms :=
        p.config_segment_duration_ms.getD a.config_segment_duration_ms
    , is_active := p.is_active.getD a.is_active
    , is_default := p.is_default.getD a.is_default }

/-- Replace the row with the given id (SQLAlchemy mutates the loaded row in
place; the committed candidate has that row updated). -/
def replaceAgent (s : AgentsDB) (agent_id : Nat) (f : Agent → Agent) : AgentsDB :=
  s.map (fun a => if a.agent_id == agent_id then f a else a)

/-- `AIAgentConfigurationRepository.update`: load, `setattr` each pair,
commit; on failure roll back and re-raise.  Returns the updated row
(or `none` when the id is unknown, committing nothing). -/
def repoUpdateAgent (s : AgentsDB) (agent_id : Nat) (p : AgentPatch) :
    AgentsDB × Except AgentError (Option Agent) :=
  match agentById s agent_id with
  | none => (s, .ok none)
  | some a =>
      match dbCommit s (replaceAgent s agent_id (fun b => applyAgentPatch b p)) with
      | (s2, none) => (s2, .ok (some (applyAgentPatch a p)))
      | (s2, some e) => (s2, .error e)

/-- `AIAgentConfigurationRepository.delete`: load, delete, commit. -/
def repoDeleteAgent (s : AgentsDB) (agent_id : Nat) :
    AgentsDB × Except AgentError Bool :=
  match agentById s agent_id with
  | none => (s, .ok false)
  | some _ =>
      match dbCommit s (s.filter (fun a => a.agent_id != agent_id)) with
      | (s2, none) => (s2, .ok true)
      | (s2, some e) => (s2, .error e)

/-- `AIAgentConfigurationService.create_agent`: when the payload asks for
`is_default` (Python truthiness of `agent_data.get("is_default")`), first
clear every default, then insert. -/
def create_agent (s : AgentsDB) (d : AgentCreateData) :
    AgentsDB × Except AgentError Agent :=
  if d.is_default = some true then
    match unset_all_defaults s with
    | (s1, some e) => (s1, .error e)
    | (s1, none) =>
        match repoCreateAgent s1 d with
        | (s2, none) => (s2, .ok d.toRow)
        | (s2, some e) => (s2, .error e)
  else
    match repoCreateAgent s d with
    | (s2, none) => (s2, .ok d.toRow)
    | (s2, some e) => (s2, .error e)

/-- `AIAgentConfigurationService.update_agent` (lines 37–111): the
`is_default` bookkeeping — clearing other defaults when turning the flag on,
promoting a replacement (first active agent other than the target) before
turning it off, aborting with a `ValueError` when no replacement exists —
followed by the repository update. -/
def update_agent (s : AgentsDB) (agent_id : Nat) (p : AgentPatch) :
    AgentsDB × Except AgentError (Option Agent) :=
  match agentById s agent_id with
  | none => (s, .ok none)
  | some agent =>
      match p.is_default with
      | some true =>
          if ¬ agent.is_default then
            match unset_all_defaults s with
            | (s1, some e) => (s1, .error e)
            | (s1, none) => repoUpdateAgent s1 agent_id p
          else repoUpdateAgent s agent_id p
      | some false =>
          if agent.is_default then
            -- `all_active_agents` in the Python; written out at each use here
            match (s.filter (fun b => b.is_active && b.agent_id != agent_id)).find?
                (fun b => ¬ b.is_default) with
            | some other_agent =>
                -- promote and commit that change on its own
                match dbCommit s (replaceAgent s other_agent.agent_id
                    (fun b => { b with is_default := true })) with
                | (s1, none) => repoUpdateAgent s1 agent_id p
                | (s1, some e) => (s1, .error e)
            | none =>
                match s.filter (fun b => b.is_active && b.agent_id != agent_id) with
                | first_available_agent :: _ =>
                    -- force the first available agent to become the default
                    match dbCommit s (replaceAgent s first_available_agent.agent_id
                        (fun b => { b with is_default := true })) with
                    | (s1, none) => repoUpdateAgent s1 agent_id p
                    | (s1, some e) => (s1, .error e)
                | [] => (s, .error .cannotUnsetOnlyDefault)
          else repoUpdateAgent s agent_id p
      | none => repoUpdateAgent s agent_id p

/-- `AIAgentConfigurationService.delete_agent` (lines 113–155): when the row
is the default, promote the first remaining active agent first; abort with a
`ValueError` when none exists. -/
def delete_agent (s : AgentsDB) (agent_id : Nat) :
    AgentsDB × Except AgentError Bool :=
  match agentById s agent_id with
  | none => repoDeleteAgent s agent_id
  | some agent =>
      if agent.is_default then
        match s.filter (fun b => b.is_active && b.agent_id != agent_id) with
        | first_available_agent :: _ =>
            match dbCommit s (replaceAgent s first_available_agent.agent_id
                (fun b => { b with is_default := true })) with
            | (s1, none) => repoDeleteAgent s1 agent_id
            | (s1, some e) => (s1, .error e)
        | [] => (s, .error .cannotDeleteOnlyDefault)
      else repoDeleteAgent s agent_id

/-- A call against the agent service. -/
inductive AgentOp where
  | create (d : AgentCreateData)
  | update (agent_id : Nat) (p : AgentPatch)
  | delete (agent_id : Nat)
  deriving DecidableEq, Repr

/-- The state after one service call (exceptions included: the state is then
whatever the session last committed / rolled back to). -/
def agentStep (s : AgentsDB) : AgentOp → AgentsDB
  | .create d => (create_agent s d).1
  | .update agent_id p => (update_agent s agent_id p).1
  | .delete agent_id => (delete_agent s agent_id).1

/-- The state after a sequence of service calls. -/
def runAgentOps (s : AgentsDB) (ops : List AgentOp) : AgentsDB :=
  ops.foldl agentStep s

/-- Number of rows with `is_default = true` among rows with `is_active = true`. -/
def activeDefaultCount (s : AgentsDB) : Nat :=
  s.countP (fun a => a.is_default && a.is_active)

/-! ## Template-section compositions: repository and service

`template_sections_composition` declares a composite primary key
`(template_id, section_id)` and
`UNIQUE (template_id, order_index)` named
`template_sections_composition_template_id_order_index_key`
(app/models/template_section_composition.py).  The repository translates an
`IntegrityError` whose message names that unique index into the distinguishable
"duplicate order index" conflict, a violation of the composite key into the
"duplicate pair" conflict, and anything else into a generic failure
(app/repositories/template_section_composition_repository.py, lines 41–71);
in every failure case it rolls back first, so the store is unchanged. -/

/-- Some pair of rows shares the value of `key`. -/
def hasDupBy (key : TemplateSectionComposition → Nat × Int) :
    List TemplateSectionComposition → Bool
  | [] => false
  | r :: t => t.any (fun x => key x == key r) || hasDupBy key t

/-- Violation of `UNIQUE (template_id, order_index)`. -/
def orderIndexDup (s : List TemplateSectionComposition) : Bool :=
  hasDupBy (fun r => (r.template_id, r.order_index)) s

/-- Violation of the composite primary key `(template_id, section_id)`. -/
def compPkDup (s : List TemplateSectionComposition) : Bool :=
  hasDupBy (fun r => (r.template_id, (r.section_id : Int))) s

/-- Conflicts raised by the composition repository (as `RuntimeError` with
distinguishable messages) and the service's schema `ValueError`. -/
inductive CompError where
  | orderIndexConflict  -- "Ya existe una sección en esta plantilla con el mismo índice de orden."
  | pkConflict          -- "Ya existe esta combinación de sección y plantilla en la composición."
  | invalidInput        -- schema validation failure in the service
  deriving DecidableEq, Repr

/-- The create payload (`TemplateSectionCompositionCreateSchema`):
`is_mandatory` falls back to the column default `True`. -/
structure CompCreateData where
  template_id : Nat
  section_id : Nat
  order_index : Int
  is_mandatory : Option Bool
  deriving DecidableEq, Repr

/-- `TemplateSectionComposition(**composition_data)` with the column default. -/
def CompCreateData.toRow (d : CompCreateData) : TemplateSectionComposition :=
  { template_id := d.template_id
  , section_id := d.section_id
  , order_index := d.order_index
  , is_mandatory := d.is_mandatory.getD true }

/-- `TemplateSectionCompositionRepository.create`: insert, commit; on an
integrity error roll back and raise the conflict matching the violated
constraint (the repository inspects the error text in the order
order-index key, then composite key). -/
def repoCreateComposition (s : List TemplateSectionComposition) (d : CompCreateData) :
    List TemplateSectionComposition × Except CompError TemplateSectionComposition :=
  if orderIndexDup (s ++ [d.toRow]) then (s, .error .orderIndexConflict)
  else if compPkDup (s ++ [d.toRow]) then (s, .error .pkConflict)
  else (s ++ [d.toRow], .ok d.toRow)

/-- `TemplateSectionCompositionService.create_composition`: validate the
create schema (`order_index` must be ≥ 0), then delegate to the repository. -/
def create_composition (s : List TemplateSectionComposition) (d : CompCreateData) :
    List TemplateSectionComposition × Except CompError TemplateSectionComposition :=
  if d.order_index < 0 then (s, .error .invalidInput)
  else repoCreateComposition s d

/-- The update payload (`TemplateSectionCompositionUpdateSchema`). -/
structure CompUpdateData where
  order_index : Option Int := none
  is_mandatory : Option Bool := none
  deriving DecidableEq, Repr

/-- The repository's `setattr` loop for an update. -/
def applyCompPatch (r : TemplateSectionComposition) (p : CompUpdateData) :
    TemplateSectionComposition :=
  { r with
      order_index := p.order_index.getD r.order_index
    , is_mandatory := p.is_mandatory.getD r.is_mandatory }

/-- `get_by_ids` + `TemplateSectionCompositionRepository.update` as invoked by
`TemplateSectionCompositionService.update_composition`: validate, load by the
composite key (`none` when absent), apply the patch, commit; an integrity
error rolls back and raises the order-index conflict when that unique index is
named, else a generic failure (mapped here onto `pkConflict`, unreachable for
updates since the patch cannot change the key). -/
def update_composition (s : List TemplateSectionComposition)
    (template_id section_id : Nat) (p : CompUpdateData) :
    List TemplateSectionComposition × Except CompError (Option TemplateSectionComposition) :=
  if p.order_index.any (fun v => v < 0) then (s, .error .invalidInput)
  else
    match s.find? (fun r => r.template_id == template_id && r.section_id == section_id) with
    | none => (s, .ok none)
    | some r =>
        if orderIndexDup (s.map (fun x =>
            if x.template_id == template_id && x.section_id == section_id
            then applyCompPatch x p else x)) then (s, .error .orderIndexConflict)
        else if compPkDup (s.map (fun x =>
            if x.template_id == template_id && x.section_id == section_id
            then applyCompPatch x p else x)) then (s, .error .pkConflict)
        else (s.map (fun x =>
            if x.template_id == template_id && x.section_id == section_id
            then applyCompPatch x p else x), .ok (some (applyCompPatch r p)))

/-- `TemplateSectionCompositionService.delete_composition`: load by the
composite key, delete, commit (a deletion cannot violate either constraint). -/
def delete_composition (s : List TemplateSectionComposition)
    (template_id section_id : Nat) :
    List TemplateSectionComposition × Except CompError Bool :=
  match s.find? (fun r => r.template_id == template_id && r.section_id == section_id) with
  | none => (s, .ok false)
  | some _ =>
      (s.filter (fun r => ¬ (r.template_id == template_id && r.section_id == section_id)),
       .ok true)

/-- A call against the composition service. -/
inductive CompOp where
  | create (d : CompCreateData)
  | update (template_id section_id : Nat) (p : CompUpdateData)
  | delete (template_id section_id : Nat)
  deriving DecidableEq, Repr

/-- The store after one composition service call. -/
def compStep (s : List TemplateSectionComposition) : CompOp → List TemplateSectionComposition
  | .create d => (create_composition s d).1
  | .update tid sid p => (update_composition s tid sid p).1
  | .delete tid sid => (delete_composition s tid sid).1

/-- The store after a sequence of composition service calls. -/
def runCompOps (s : List TemplateSectionComposition) (ops : List CompOp) :
    List TemplateSectionComposition :=
  ops.foldl compStep s

/-! ## OIDC callback: the `/oidc_callback` Flask view (app/__init__.py, 36–51) -/

/-- The caller's server-side session, reduced to the keys the view touches. -/
structure OidcSession where
  access_token : Option String
  refresh_token : Option String
  next_url : Option String
  deriving DecidableEq, Repr

/-- The token response from `keycloak_openid.token(...)`. -/
structure TokenPair where
  access_token : String
  refresh_token : String
  deriving DecidableEq, Repr

/-- The view's possible responses. -/
inductive OidcResponse where
  | redirect (url : String)
  | plainText (body : String) (status : Nat)
  deriving DecidableEq, Repr

/-- The `callback` view: `code = request.args.get("code")`; a truthy code is
exchanged for tokens which are stored in the session; `next_url` is popped
and, when present, answered with a redirect; every other path falls through
to `return "Authorization failed", 400`. -/
def oidc_callback (token_exchange : String → TokenPair)
    (code : Option String) (sess : OidcSession) : OidcSession × OidcResponse :=
  match code with
  | some c =>
      if c ≠ "" then
        let token := token_exchange c
        let sess1 := { sess with
            access_token := some token.access_token
          , refresh_token := some token.refresh_token }
        match sess1.next_url with
        | some next_url => ({ sess1 with next_url := none }, .redirect next_url)
        | none => ({ sess1 with next_url := none }, .plainText "Authorization failed" 400)
      else (sess, .plainText "Authorization failed" 400)
  | none => (sess, .plainText "Authorization failed" 400)

/-! ## Transcription pipeline: `POST /api/transcribe`

`transcribe_controller.transcribe_audio` (app/controllers/transcribe_controller.py,
lines 69–136) checks the multipart form, parses the optional `agent_id`, and
always passes the hard-coded development user id
`uuid.UUID("a1b2c3d4-e5f6-7890-1234-567890abcdef")` to
`TranscribeService.transcribe_audio` (app/services/transcribe_service.py,
lines 38–165), which resolves the agent, uploads the original under
`audios/{user_id}/{filename}` and persists a `Transcription` with
`created_by = user_id`.  External effects (UUID generation, blob upload,
the speech API) are supplied as an environment record. -/

/-- A `transcriptions` row as built by `TranscribeService.transcribe_audio`. -/
structure Transcription where
  audio_url : String
  text_content : String
  duration_seconds : Nat
  status : String
  agent_id : Nat
  created_by : String
  deriving DecidableEq, Repr

/-- Failures raised inside `TranscribeService.transcribe_audio`
(`ValueError`s for the validation cases, `RuntimeError` for upstream ones). -/
inductive TranscribeError where
  | noFile              -- "No se proporcionó ningún archivo de audio válido."
  | agentNotFound
  | agentNotActive
  | noDefaultAgent
  | agentNotCompatible
  | transcriptionFailed -- an error escaping the audio processor
  deriving DecidableEq, Repr

/-- The outside world as observed by one `/api/transcribe` request. -/
structure TranscribeEnv where
  agents : AgentsDB                    -- committed ai_agent_configurations rows
  generated_uuid : String              -- the `uuid.uuid4()` drawn for the filename
  blob_url_of : String → String        -- AzureBlobManager.upload_blob: name ↦ url
  audio_duration_ms : Nat              -- what the upload decodes to
  whisper_of : AudioChunk → String     -- the speech API, per chunk
  default_segment_duration_ms : Nat    -- the service's configured fallback
  uuid_parse : String → Option Nat     -- uuid.UUID(...) on the form field

/-- `AIAgentConfigurationRepository.get_default_agent`
(`filter_by(is_default=True, is_active=True).first()`). -/
def get_default_agent (s : AgentsDB) : Option Agent :=
  s.find? (fun a => a.is_default && a.is_active)

/-- Step 1 of `TranscribeService.transcribe_audio`: resolve the agent — an
explicit id must exist and be active; otherwise the active default is used
and its absence is a hard failure. -/
def select_transcription_agent (agents : AgentsDB) (agent_id : Option Nat) :
    Except TranscribeError Agent :=
  match agent_id with
  | some aid =>
      match agentById agents aid with
      | none => .error .agentNotFound
      | some ag => if ¬ ag.is_active then .error .agentNotActive else .ok ag
  | none =>
      match get_default_agent agents with
      | none => .error .noDefaultAgent
      | some ag => .ok ag

/-- `TranscribeService.transcribe_audio`: validate the file, resolve and
check the agent, pick the segment duration (the agent's
`config_json["segment_duration_ms"]` or the configured fallback), build the
generated filename and the blob key `audios/\x7buser_id\x7d/\x7bfilename\x7d`, upload,
transcribe, and return the persisted row together with the blob key used. -/
def transcribe_service (env : TranscribeEnv) (audio_filename : String)
    (user_id : String) (agent_id : Option Nat) :
    Except TranscribeError (Transcription × String) :=
  if audio_filename = "" then .error .noFile
  else
    match select_transcription_agent env.agents agent_id with
    | .error e => .error e
    | .ok selected_agent =>
        if selected_agent.provider ≠ "OPENAI" ∨ selected_agent.model_name ≠ "whisper-1" then
          .error .agentNotCompatible
        else
          match transcribe_audio_with_whisper env.audio_duration_ms
              (selected_agent.config_segment_duration_ms.getD env.default_segment_duration_ms)
              env.whisper_of with
          | .error _ => .error .transcriptionFailed
          | .ok transcribed_text =>
              .ok
                ({ audio_url := env.blob_url_of
                     ("audios/" ++ user_id ++ "/" ++ (env.generated_uuid ++ "_" ++ audio_filename))
                 , text_content := transcribed_text
                 , duration_seconds := env.audio_duration_ms / 1000
                 , status := "completed"
                 , agent_id := selected_agent.agent_id
                 , created_by := user_id },
                 "audios/" ++ user_id ++ "/" ++ (env.generated_uuid ++ "_" ++ audio_filename))

/-- The multipart request to `POST /api/transcribe`. -/
structure TranscribeRequest where
  has_audio_field : Bool          -- `"audio" in request.files`
  filename : String               -- `request.files["audio"].filename`
  agent_id_form : Option String   -- `request.form.get("agent_id")`
  deriving DecidableEq, Repr

/-- The controller's observable outcome: an HTTP error status, or the created
transcription plus the blob key under which the original was stored. -/
inductive TranscribeOutcome where
  | httpError (status : Nat)
  | created (t : Transcription) (blob_name : String)
  deriving DecidableEq, Repr

/-- The fixed development user id the controller passes for every request
(transcribe_controller.py, lines 104–109). -/
def fixed_dev_user_id : String := "a1b2c3d4-e5f6-7890-1234-567890abcdef"

/-- The controller's `agent_id` form handling: an empty or absent form value
is falsy and treated as no agent id; a non-empty value must parse as a UUID
or the request is rejected. -/
def parse_agent_id_form (uuid_parse : String → Option Nat) :
    Option String → Except Unit (Option Nat)
  | some agent_id_str =>
      if agent_id_str ≠ "" then
        match uuid_parse agent_id_str with
        | none => .error ()
        | some aid => .ok (some aid)
      else .ok none
  | none => .ok none

/-- `transcribe_controller.transcribe_audio`: form checks, `agent_id`
parsing, then the service call with the hard-coded user id; `ValueError`s
map to 400 and `RuntimeError`s to 500. -/
def transcribe_controller (env : TranscribeEnv) (req : TranscribeRequest) :
    TranscribeOutcome :=
  if ¬ req.has_audio_field then .httpError 400
  else if req.filename = "" then .httpError 400
  else
    match parse_agent_id_form env.uuid_parse req.agent_id_form with
    | .error _ => .httpError 400
    | .ok agent_id =>
        match transcribe_service env req.filename fixed_dev_user_id agent_id with
        | .ok (t, blob_name) => .created t blob_name
        | .error .transcriptionFailed => .httpError 500
        | .error _ => .httpError 400

/-! ## Concrete fixtures used by the claim theorems and witnesses -/

/-- The document-assembly scenario of the "document assembly determinism"
property: one template (the data model has no base-content column, so the
scenario's base content `"A:"` has no field to live in), a section with
content `\x7b\x7bx\x7d\x7d` at order 0 and a section with content `fixed` at order 1. -/
def assemblyDb : NotaryDB :=
  { templates :=
      [ { template_id := 1, template_name := "A:", description := none
        , document_type_id := some 7, is_active := true, created_by := none
        , created_at := 0, updated_at := 0 } ]
  , sections :=
      [ { section_id := 10, section_name := "varSection"
        , section_content_template := "\x7b\x7bx\x7d\x7d", variables_schema := .null
        , description := none }
      , { section_id := 11, section_name := "fixedSection"
        , section_content_template := "fixed", variables_schema := .null
        , description := none } ]
  , compositions :=
      [ { template_id := 1, section_id := 10, order_index := 0, is_mandatory := true }
      , { template_id := 1, section_id := 11, order_index := 1, is_mandatory := true } ] }

/-- The create payload of that scenario, with `dynamic_data = \x7b"x": "42"\x7d`. -/
def assemblyInput : DocumentCreateData :=
  { document_name := "Contrato", document_type_id := 7, template_id := 1
  , dynamic_data := [("x", .s "42")], created_by := none }

/-- The document the code actually persists for `assemblyDb`/`assemblyInput`:
its `text_content` is empty. -/
def assemblyResult : Document :=
  { document_name := "Contrato", document_type_id := 7, template_id := 1
  , text_content := "", pdf_url := none
  , dynamic_data := [("x", .s "42")], created_by := none }

/-- A single agent row that is active and the default. -/
def soleDefaultAgent : Agent :=
  { agent_id := 1, agent_name := "whisper", provider := "OPENAI"
  , model_name := "whisper-1", config_segment_duration_ms := none
  , is_active := true, is_default := true }

/-- An operation sequence exercising create, update and delete. -/
def sampleAgentOps : List AgentOp :=
  [ .create { agent_id := 1, agent_name := "A", provider := "OPENAI"
            , model_name := "whisper-1", config_segment_duration_ms := none
            , is_active := some true, is_default := some true }
  , .create { agent_id := 2, agent_name := "B", provider := "OPENAI"
            , model_name := "whisper-1", config_segment_duration_ms := none
            , is_active := some true, is_default := some true }
  , .update 1 { is_default := some false }
  , .delete 2 ]

/-- A composition row at `(template 1, section 10, order 0)`. -/
def compRow0 : TemplateSectionComposition :=
  { template_id := 1, section_id := 10, order_index := 0, is_mandatory := true }

/-- A create payload reusing template 1's order index 0 with a new section. -/
def compClash : CompCreateData :=
  { template_id := 1, section_id := 11, order_index := 0, is_mandatory := none }

/-- An operation sequence against the composition service. -/
def sampleCompOps : List CompOp :=
  [ .create { template_id := 1, section_id := 10, order_index := 0, is_mandatory := none }
  , .create { template_id := 1, section_id := 11, order_index := 0, is_mandatory := none }
  , .update 1 10 { order_index := some 2 }
  , .delete 1 10 ]

/-- A deterministic token endpoint for the callback evaluations. -/
def sampleTokenExchange : String → TokenPair :=
  fun c => { access_token := "access-" ++ c, refresh_token := "refresh-" ++ c }

/-- A session holding nothing. -/
def emptyOidcSession : OidcSession :=
  { access_token := none, refresh_token := none, next_url := none }

/-- A session with a stashed `next_url`. -/
def nextStashedSession : OidcSession :=
  { access_token := none, refresh_token := none, next_url := some "/home" }

/-- An environment for the transcription pipeline: one compatible default
agent, a five-second audio, deterministic generated UUID and blob URLs. -/
def sampleTranscribeEnv : TranscribeEnv :=
  { agents := [soleDefaultAgent]
  , generated_uuid := "11111111-2222-3333-4444-555555555555"
  , blob_url_of := fun n => "https://acct.blob.core.windows.net/container/" ++ n
  , audio_duration_ms := 5000
  , whisper_of := fun _ => "hola mundo"
  , default_segment_duration_ms := 300000
  , uuid_parse := fun _ => none }

/-- A well-formed upload request with no `agent_id` form field. -/
def sampleTranscribeRequest : TranscribeRequest :=
  { has_audio_field := true, filename := "meeting.mp3", agent_id_form := none }

/-! ## Lemmas about the placeholder scanner -/

theorem matchPlaceholder_some {l key rest2 : List Char}
    (h : matchPlaceholder l = some (key, rest2)) :
    l = '{' :: '{' :: (key ++ '}' :: '}' :: rest2) ∧ key ≠ [] := by
  match l with
  | [] => simp [matchPlaceholder] at h
  | [c1] => simp [matchPlaceholder] at h
  | c1 :: c2 :: rest =>
    simp only [matchPlaceholder] at h
    by_cases hbr : c1 = '{' ∧ c2 = '{'
    · rw [if_pos hbr] at h
      obtain ⟨h1, h2⟩ := hbr
      subst h1; subst h2
      rcases htk : rest.takeWhile (fun c => c ≠ '}') with _ | ⟨x, xs⟩ <;>
        rcases hdw : rest.dropWhile (fun c => c ≠ '}') with _ | ⟨d1, rest1⟩ <;>
          rw [htk, hdw] at h
      · simp at h
      · rcases rest1 with _ | ⟨d2, rest2x⟩
        · simp at h
        · simp at h
      · simp at h
      · rcases rest1 with _ | ⟨d2, rest2x⟩
        · simp at h
        · replace h : (if d1 = '}' ∧ d2 = '}' then
              some ((x :: xs : List Char), rest2x) else none) = some (key, rest2) := h
          by_cases hbr2 : d1 = '}' ∧ d2 = '}'
          · rw [if_pos hbr2] at h
            obtain ⟨e1, e2⟩ := hbr2
            subst e1; subst e2
            have hsplit := List.takeWhile_append_dropWhile (p := fun c => c ≠ '}') (l := rest)
            rw [htk, hdw] at hsplit
            simp only [Option.some.injEq, Prod.mk.injEq] at h
            obtain ⟨hkey, hrest⟩ := h
            subst hkey; subst hrest
            exact ⟨by rw [← hsplit], by simp⟩
          · rw [if_neg hbr2] at h
            simp at h
    · rw [if_neg hbr] at h
      simp at h

theorem substChars_empty_data : ∀ (fuel : Nat) (l : List Char),
    substChars [] fuel l = l := by
  intro fuel
  induction fuel with
  | zero => intro l; rfl
  | succ n ih =>
    intro l
    cases l with
    | nil => rfl
    | cons c cs =>
      rcases hm : matchPlaceholder (c :: cs) with _ | ⟨key, rest2⟩
      · simp only [substChars, hm, ih]
      · obtain ⟨hl, -⟩ := matchPlaceholder_some hm
        rw [List.cons.injEq] at hl
        obtain ⟨hc, hcs⟩ := hl
        subst hc; subst hcs
        simp only [substChars, hm, lookupStr, List.find?_nil, ih]
        simp

theorem takeWhile_nonbrace {a b : List Char} (ha : ∀ c ∈ a, c ≠ '}') :
    (a ++ '}' :: b).takeWhile (fun c => c ≠ '}') = a := by
  induction a with
  | nil => simp [List.takeWhile_cons]
  | cons x xs ih =>
    have hx : x ≠ '}' := ha x (by simp)
    have ih2 := ih (fun c hc => ha c (by simp [hc]))
    simp only [List.cons_append, List.takeWhile_cons] at ih2 ⊢
    simpa [hx] using ih2

theorem dropWhile_nonbrace {a b : List Char} (ha : ∀ c ∈ a, c ≠ '}') :
    (a ++ '}' :: b).dropWhile (fun c => c ≠ '}') = '}' :: b := by
  induction a with
  | nil => simp [List.dropWhile_cons]
  | cons x xs ih =>
    have hx : x ≠ '}' := ha x (by simp)
    simp only [List.cons_append, List.dropWhile_cons]
    rw [ih (fun c hc => ha c (by simp [hc]))]
    simp [hx]

theorem matchPlaceholder_of_key {k b : List Char} (hne : k ≠ [])
    (hnb : ∀ c ∈ k, c ≠ '}') :
    matchPlaceholder ('{' :: '{' :: (k ++ '}' :: '}' :: b)) = some (k, b) := by
  rcases k with _ | ⟨x, xs⟩
  · exact absurd rfl hne
  · show matchPlaceholder ('{' :: '{' :: ((x :: xs) ++ '}' :: '}' :: b)) = _
    simp only [matchPlaceholder, if_pos (And.intro rfl rfl)]
    have htk := takeWhile_nonbrace (a := x :: xs) (b := '}' :: b) hnb
    have hdw := dropWhile_nonbrace (a := x :: xs) (b := '}' :: b) hnb
    simp only [List.cons_append] at htk hdw ⊢
    rw [htk, hdw]
    simp

theorem substChars_nil (data : List (String × String)) (fuel : Nat) :
    substChars data fuel [] = [] := by
  cases fuel <;> rfl

theorem substChars_cons_match {data : List (String × String)} {fuel : Nat}
    {c : Char} {cs key rest2 : List Char}
    (hm : matchPlaceholder (c :: cs) = some (key, rest2)) :
    substChars data (fuel + 1) (c :: cs) =
      (match lookupStr data (String.mk key) with
       | some v => v.data
       | none => '{' :: '{' :: (key ++ ['}', '}'])) ++ substChars data fuel rest2 := by
  simp only [substChars, hm]

theorem string_mk_data (s : String) : String.mk s.data = s := by
  cases s
  rfl

theorem matchPlaceholder_none_head {c : Char} {cs : List Char} (h : c ≠ '{') :
    matchPlaceholder (c :: cs) = none := by
  cases cs with
  | nil => rfl
  | cons c2 rest =>
    simp only [matchPlaceholder]
    rw [if_neg (fun hc => h hc.1)]

/-- The scanner does not depend on the exact fuel, as long as it covers the
input length (each unit of fuel consumes at least one character). -/
theorem substChars_fuel_irrel (data : List (String × String)) :
    ∀ (f1 f2 : Nat) (l : List Char), l.length ≤ f1 → l.length ≤ f2 →
    substChars data f1 l = substChars data f2 l := by
  intro f1
  induction f1 with
  | zero =>
    intro f2 l h1 _
    have hnil : l = [] := List.eq_nil_of_length_eq_zero (by omega)
    subst hnil
    rw [substChars_nil, substChars_nil]
  | succ n ih =>
    intro f2 l h1 h2
    cases l with
    | nil => rw [substChars_nil, substChars_nil]
    | cons c cs =>
      cases f2 with
      | zero => simp at h2
      | succ m =>
        rcases hm : matchPlaceholder (c :: cs) with _ | ⟨key, rest2⟩
        · simp only [substChars, hm]
          rw [ih m cs (by simpa using h1) (by simpa using h2)]
        · obtain ⟨hl, -⟩ := matchPlaceholder_some hm
          have hlen : (c :: cs).length = rest2.length + key.length + 4 := by
            rw [hl]
            simp
            omega
          simp only [substChars, hm]
          rw [ih m rest2 (by simp at h1 hlen; omega) (by simp at h2 hlen; omega)]

/-- The scanner passes over a brace-free prefix unchanged: no match can
start at any of its positions. -/
theorem substChars_append_nonbrace (data : List (String × String)) :
    ∀ (a : List Char) (fuel : Nat) (l : List Char),
    (∀ c ∈ a, c ≠ '{') → a.length + l.length ≤ fuel →
    substChars data fuel (a ++ l) = a ++ substChars data (fuel - a.length) l := by
  intro a
  induction a with
  | nil =>
    intro fuel l _ _
    simp
  | cons c a2 ih =>
    intro fuel l ha hlen
    cases fuel with
    | zero => simp at hlen
    | succ n =>
      have hc : c ≠ '{' := ha c (by simp)
      have hm : matchPlaceholder (c :: (a2 ++ l)) = none := matchPlaceholder_none_head hc
      simp only [List.cons_append, substChars, List.append_eq, hm]
      rw [ih n l (fun x hx => ha x (by simp [hx])) (by simp at hlen; omega)]
      have harith : n + 1 - (a2.length + 1) = n - a2.length := by omega
      simp [harith]

/-! ## Lemmas about the agent service

Every mutation of the agent table goes through `dbCommit`, so after any
service call the committed state either is the starting state (all commits
failed or nothing was committed) or satisfies the table constraints. -/

/-- After a step from `s`, the state is unchanged or constraint-satisfying. -/
def StOk (s s2 : AgentsDB) : Prop :=
  s2 = s ∨ agentConstraintsOk s2 = true

theorem StOk.refl (s : AgentsDB) : StOk s s := Or.inl rfl

theorem StOk.of_mid_ok {s s1 s2 : AgentsDB}
    (h1 : agentConstraintsOk s1 = true) (h2 : StOk s1 s2) : StOk s s2 := by
  rcases h2 with rfl | h2
  · exact Or.inr h1
  · exact Or.inr h2

theorem dbCommit_ok {old c s2 : AgentsDB} (h : dbCommit old c = (s2, none)) :
    agentConstraintsOk s2 = true := by
  unfold dbCommit at h
  split at h
  · next hc =>
      obtain ⟨rfl, -⟩ := Prod.mk.injEq .. ▸ h
      exact hc
  · simp at h

theorem dbCommit_err {old c s2 : AgentsDB} {e : AgentError}
    (h : dbCommit old c = (s2, some e)) : s2 = old := by
  unfold dbCommit at h
  split at h
  · simp at h
  · obtain ⟨rfl, -⟩ := Prod.mk.injEq .. ▸ h
    rfl

theorem stOk_dbCommit (s c : AgentsDB) : StOk s (dbCommit s c).1 := by
  unfold dbCommit
  split
  · next hc => exact Or.inr hc
  · exact Or.inl rfl

theorem stOk_unset_all_defaults (s : AgentsDB) : StOk s (unset_all_defaults s).1 := by
  unfold unset_all_defaults
  exact stOk_dbCommit s _

theorem stOk_repoCreateAgent (s : AgentsDB) (d : AgentCreateData) :
    StOk s (repoCreateAgent s d).1 := by
  unfold repoCreateAgent
  exact stOk_dbCommit s _

theorem stOk_repoUpdateAgent (s : AgentsDB) (agent_id : Nat) (p : AgentPatch) :
    StOk s (repoUpdateAgent s agent_id p).1 := by
  unfold repoUpdateAgent
  split
  · exact StOk.refl s
  · split
    · next heq => exact Or.inr (dbCommit_ok heq)
    · next heq => exact Or.inl (dbCommit_err heq)

theorem stOk_repoDeleteAgent (s : AgentsDB) (agent_id : Nat) :
    StOk s (repoDeleteAgent s agent_id).1 := by
  unfold repoDeleteAgent
  split
  · exact StOk.refl s
  · split
    · next heq => exact Or.inr (dbCommit_ok heq)
    · next heq => exact Or.inl (dbCommit_err heq)

theorem stOk_create_agent (s : AgentsDB) (d : AgentCreateData) :
    StOk s (create_agent s d).1 := by
  unfold create_agent
  split
  · split
    · next s1 e heq =>
        have h1 : s1 = s := by
          unfold unset_all_defaults at heq
          exact dbCommit_err heq
        rw [h1]
        exact StOk.refl s
    · next s1 heq =>
        have h1 : agentConstraintsOk s1 = true := by
          unfold unset_all_defaults at heq
          exact dbCommit_ok heq
        split
        · next s2 heq2 =>
            refine StOk.of_mid_ok h1 ?_
            have := stOk_repoCreateAgent s1 d
            rw [heq2] at this
            exact this
        · next s2 e2 heq2 =>
            refine StOk.of_mid_ok h1 ?_
            have := stOk_repoCreateAgent s1 d
            rw [heq2] at this
            exact this
  · split
    · next s2 heq2 =>
        have := stOk_repoCreateAgent s d
        rw [heq2] at this
        exact this
    · next s2 e2 heq2 =>
        have := stOk_repoCreateAgent s d
        rw [heq2] at this
        exact this

theorem stOk_update_agent (s : AgentsDB) (agent_id : Nat) (p : AgentPatch) :
    StOk s (update_agent s agent_id p).1 := by
  unfold update_agent
  split
  · exact StOk.refl s
  · split
    · -- p.is_default = some true
      split
      · split
        · next s1 e heq =>
            have h1 : s1 = s := by
              unfold unset_all_defaults at heq
              exact dbCommit_err heq
            rw [h1]
            exact StOk.refl s
        · next s1 heq =>
            have h1 : agentConstraintsOk s1 = true := by
              unfold unset_all_defaults at heq
              exact dbCommit_ok heq
            exact StOk.of_mid_ok h1 (stOk_repoUpdateAgent s1 agent_id p)
      · exact stOk_repoUpdateAgent s agent_id p
    · -- p.is_default = some false
      split
      · split
        · -- a non-default active replacement was found
          split
          · next s1 heq => exact StOk.of_mid_ok (dbCommit_ok heq) (stOk_repoUpdateAgent s1 agent_id p)
          · next s1 e heq => exact (dbCommit_err heq) ▸ StOk.refl s
        · split
          · -- forced promotion of the first active agent
            split
            · next s1 heq => exact StOk.of_mid_ok (dbCommit_ok heq) (stOk_repoUpdateAgent s1 agent_id p)
            · next s1 e heq => exact (dbCommit_err heq) ▸ StOk.refl s
          · exact StOk.refl s
      · exact stOk_repoUpdateAgent s agent_id p
    · exact stOk_repoUpdateAgent s agent_id p

theorem stOk_delete_agent (s : AgentsDB) (agent_id : Nat) :
    StOk s (delete_agent s agent_id).1 := by
  unfold delete_agent
  split
  · exact stOk_repoDeleteAgent s agent_id
  · split
    · split
      · split
        · next s1 heq => exact StOk.of_mid_ok (dbCommit_ok heq) (stOk_repoDeleteAgent s1 agent_id)
        · next s1 e heq => exact (dbCommit_err heq) ▸ StOk.refl s
      · exact StOk.refl s
    · exact stOk_repoDeleteAgent s agent_id

theorem stOk_agentStep (s : AgentsDB) (op : AgentOp) : StOk s (agentStep s op) := by
  cases op with
  | create d => exact stOk_create_agent s d
  | update agent_id p => exact stOk_update_agent s agent_id p
  | delete agent_id => exact stOk_delete_agent s agent_id

theorem activeDefaultCount_le_of_ok {s : AgentsDB}
    (h : agentConstraintsOk s = true) : activeDefaultCount s ≤ 1 := by
  unfold agentConstraintsOk at h
  rw [Bool.and_eq_true, Bool.and_eq_true] at h
  have hcount : (s.countP (fun a => a.is_default)) ≤ 1 := by
    have := h.2
    simpa using this
  refine le_trans ?_ hcount
  unfold activeDefaultCount
  refine List.countP_mono_left ?_
  intro a _ ha
  rw [Bool.and_eq_true] at ha
  exact ha.1

theorem agentById_eq_self {s : AgentsDB} {a : Agent}
    (hn : nodupBy Agent.agent_id s = true) (ha : a ∈ s) :
    agentById s a.agent_id = some a := by
  induction s with
  | nil => cases ha
  | cons b t ih =>
    unfold nodupBy at hn
    rw [Bool.and_eq_true] at hn
    rcases List.mem_cons.1 ha with rfl | hat
    · simp [agentById]
    · have hne : b.agent_id ≠ a.agent_id := by
        have hall := List.all_eq_true.1 hn.1 a hat
        simp only [bne_iff_ne, ne_eq] at hall
        exact fun h => hall h.symm
      unfold agentById
      rw [List.find?_cons_of_neg _ (by simp [hne])]
      exact ih hn.2 hat

theorem activeFilter_eq_nil {s : AgentsDB} {a : Agent}
    (honly : ∀ b ∈ s, b.is_active = true → b = a) :
    s.filter (fun b => b.is_active && b.agent_id != a.agent_id) = [] := by
  rw [List.filter_eq_nil_iff]
  intro b hb
  rw [Bool.and_eq_true, bne_iff_ne]
  rintro ⟨hact, hne⟩
  exact hne (by rw [honly b hb hact])

/-! ## Lemmas about the composition store -/

/-- The `(template_id, order_index)` uniqueness invariant, as the spec words
it: no two composition rows of one template share a position. -/
def compOrderUnique (s : List TemplateSectionComposition) : Prop :=
  s.Pairwise (fun r1 r2 => r1.template_id = r2.template_id → r1.order_index ≠ r2.order_index)

theorem hasDupBy_eq_false_iff {key : TemplateSectionComposition → Nat × Int}
    {l : List TemplateSectionComposition} :
    hasDupBy key l = false ↔ l.Pairwise (fun a b => key a ≠ key b) := by
  induction l with
  | nil => simp [hasDupBy]
  | cons r t ih =>
    unfold hasDupBy
    rw [Bool.or_eq_false_iff, List.any_eq_false, List.pairwise_cons, ih]
    constructor
    · rintro ⟨h1, h2⟩
      refine ⟨fun b hb => ?_, h2⟩
      have := h1 b hb
      simp only [beq_iff_eq] at this
      exact fun he => this he.symm
    · rintro ⟨h1, h2⟩
      refine ⟨fun b hb => ?_, h2⟩
      simp only [beq_iff_eq]
      exact fun he => h1 b hb he.symm

theorem compOrderUnique_iff {l : List TemplateSectionComposition} :
    compOrderUnique l ↔ orderIndexDup l = false := by
  unfold compOrderUnique orderIndexDup
  rw [hasDupBy_eq_false_iff]
  constructor <;> intro h <;> refine h.imp ?_ <;> intro a b hab
  · intro hpair
    rw [Prod.mk.injEq] at hpair
    exact hab hpair.1 hpair.2
  · intro htid hord
    exact hab (by rw [Prod.mk.injEq]; exact ⟨htid, hord⟩)

theorem orderIndexDup_filter {l : List TemplateSectionComposition}
    {p : TemplateSectionComposition → Bool}
    (h : orderIndexDup l = false) : orderIndexDup (l.filter p) = false := by
  rw [← compOrderUnique_iff] at h ⊢
  exact List.Pairwise.sublist (List.filter_sublist l) h

theorem compStep_preserves_orderUnique {s : List TemplateSectionComposition}
    {op : CompOp} (h : orderIndexDup s = false) :
    orderIndexDup (compStep s op) = false := by
  cases op with
  | create d =>
    show orderIndexDup (create_composition s d).1 = false
    unfold create_composition repoCreateComposition
    split
    · exact h
    · split
      case isTrue => exact h
      case isFalse hdup =>
        split
        case isTrue => exact h
        case isFalse => simpa using hdup
  | update tid sid p =>
    show orderIndexDup (update_composition s tid sid p).1 = false
    unfold update_composition
    split
    · exact h
    · split
      · exact h
      · split
        case isTrue => exact h
        case isFalse hdup =>
          split
          case isTrue => exact h
          case isFalse => simpa using hdup
  | delete tid sid =>
    show orderIndexDup (delete_composition s tid sid).1 = false
    unfold delete_composition
    split
    · exact h
    · exact orderIndexDup_filter h

theorem hasDupBy_append_mem {key : TemplateSectionComposition → Nat × Int}
    {l : List TemplateSectionComposition} {new r : TemplateSectionComposition}
    (hr : r ∈ l) (hk : key r = key new) :
    hasDupBy key (l ++ [new]) = true := by
  induction l with
  | nil => cases hr
  | cons b t ih =>
    rw [List.cons_append]
    unfold hasDupBy
    rw [Bool.or_eq_true]
    rcases List.mem_cons.1 hr with rfl | hrt
    · left
      rw [List.any_eq_true]
      exact ⟨new, by simp, by simp [hk.symm]⟩
    · right
      exact ih hrt

/-! ## Lemmas about document assembly -/

theorem dictGet_templateDump_base_content (t : Template) :
    dictGet (templateDump t) "base_content" = none := rfl

theorem dictGet_compositionDump_template_section_id (c : TemplateSectionComposition) :
    dictGet (compositionDump c) "template_section_id" = none := rfl

theorem appendSection_noop {db : NotaryDB} {acc : String} {x : PyDict}
    (h : dictGet x "template_section_id" = none) :
    appendSection db acc x = acc := by
  unfold appendSection
  rw [h]
  rfl

theorem mem_insertByDumpKey {x d : PyDict} : ∀ {l : List PyDict},
    x ∈ insertByDumpKey d l → x = d ∨ x ∈ l := by
  intro l
  induction l with
  | nil =>
    intro h
    rcases List.mem_singleton.1 h with rfl
    exact Or.inl rfl
  | cons b t ih =>
    unfold insertByDumpKey
    split
    · intro h
      rcases List.mem_cons.1 h with rfl | h2
      · exact Or.inr (List.mem_cons_self _ _)
      · rcases ih h2 with h3 | h3
        · exact Or.inl h3
        · exact Or.inr (List.mem_cons_of_mem _ h3)
    · intro h
      rcases List.mem_cons.1 h with rfl | h2
      · exact Or.inl rfl
      · exact Or.inr h2

theorem mem_of_mem_pySorted {x : PyDict} : ∀ {l : List PyDict},
    x ∈ pySortedByOrderKey l → x ∈ l := by
  intro l
  induction l with
  | nil => intro h; cases h
  | cons b t ih =>
    intro h
    rcases mem_insertByDumpKey h with rfl | h2
    · exact List.mem_cons_self _ _
    · exact List.mem_cons_of_mem _ (ih h2)

theorem foldl_const {α β : Type} {f : α → β → α} :
    ∀ (l : List β), (∀ x ∈ l, ∀ a, f a x = a) → ∀ acc, l.foldl f acc = acc := by
  intro l
  induction l with
  | nil => intro _ acc; rfl
  | cons b t ih =>
    intro h acc
    rw [List.foldl_cons, h b (List.mem_cons_self _ _) acc]
    exact ih (fun x hx => h x (List.mem_cons_of_mem _ hx)) acc

/-! ## Lemmas about the audio chunker -/

theorem pyRangeAux_eq (step : Nat) (hstep : 0 < step) :
    ∀ (fuel start stop : Nat), stop - start ≤ fuel →
    pyRangeAux fuel start stop step =
      (List.range ((stop - start + step - 1) / step)).map (fun j => start + j * step) := by
  intro fuel
  induction fuel with
  | zero =>
    intro start stop hle
    have h0 : stop - start = 0 := by omega
    rw [pyRangeAux, h0]
    have hz : (0 + step - 1) / step = 0 := Nat.div_eq_of_lt (by omega)
    rw [hz]
    simp
  | succ fuel ih =>
    intro start stop hle
    by_cases h : start < stop
    · simp only [pyRangeAux, if_pos (And.intro h hstep)]
      rw [ih (start + step) stop (by omega)]
      have key : (stop - start + step - 1) / step
          = (stop - (start + step) + step - 1) / step + 1 := by
        by_cases hc : step ≤ stop - start
        · have h1 : stop - (start + step) + step - 1 = stop - start - 1 := by omega
          have h2 : stop - start + step - 1 = (stop - start - 1) + step := by omega
          rw [h1, h2, Nat.add_div_right _ hstep]
        · have h1 : stop - (start + step) = 0 := by omega
          rw [h1]
          have h2 : (0 + step - 1) / step = 0 := Nat.div_eq_of_lt (by omega)
          rw [h2]
          have h3 : 1 * step ≤ stop - start + step - 1 := by
            rw [one_mul]; omega
          have h4 : stop - start + step - 1 < (1 + 1) * step := by
            have : (1 + 1) * step = step + step := by ring
            rw [this]; omega
          rw [Nat.div_eq_of_lt_le h3 h4]
      rw [key, List.range_succ_eq_map]
      simp only [List.map_cons, List.map_map, Nat.zero_mul, Nat.add_zero]
      refine congrArg (start :: ·) (List.map_congr_left ?_)
      intro j hj
      simp only [Function.comp_apply, Nat.succ_eq_add_one]
      ring
    · simp only [pyRangeAux, if_neg (fun hcontra : start < stop ∧ 0 < step => h hcontra.1)]
      have h0 : stop - start = 0 := by omega
      rw [h0]
      have hz : (0 + step - 1) / step = 0 := Nat.div_eq_of_lt (by omega)
      rw [hz]
      simp

theorem pyRange_eq (stop step : Nat) (hstep : 0 < step) :
    pyRange stop step = (List.range ((stop + step - 1) / step)).map (fun j => j * step) := by
  unfold pyRange
  rw [pyRangeAux_eq step hstep stop 0 stop (by omega)]
  simp

theorem ceil_div_split (s q r : Nat) (hs : 0 < s) (hrs : r < s) :
    (s * q + r + s - 1) / s = if r = 0 then q else q + 1 := by
  by_cases h0 : r = 0
  · subst h0
    rw [if_pos rfl]
    have e1 : s * q + 0 + s - 1 = s * q + (s - 1) := by
      obtain ⟨A, hA⟩ : ∃ A, A = s * q := ⟨_, rfl⟩
      rw [← hA]
      omega
    rw [e1, Nat.mul_add_div hs, Nat.div_eq_of_lt (by omega)]
    omega
  · rw [if_neg h0]
    have e1 : s * q + r + s - 1 = s * (q + 1) + (r - 1) := by
      have hmul : s * (q + 1) = s * q + s := by ring
      obtain ⟨A, hA⟩ : ∃ A, A = s * q := ⟨_, rfl⟩
      rw [hmul, ← hA]
      omega
    rw [e1, Nat.mul_add_div hs, Nat.div_eq_of_lt (by omega)]

/-! ## Claim theorems -/

/-- C8: placeholder substitution replaces a `\x7b\x7bname\x7d\x7d` span only when its
literal inner text equals a key of the data map (value coerced to text) and
leaves the placeholder untouched when the key is absent — for every data
map: a `\x7b\x7bk\x7d\x7d` span whose key misses the (coerced) map is reproduced verbatim,
with substitution continuing after it, wherever the span occurs after a
brace-free prefix.  In particular substitution with an empty data map is the
identity on every content string, so content `"Hello \x7b\x7bname\x7d\x7d"` with empty
dynamic data yields exactly `"Hello \x7b\x7bname\x7d\x7d"`. -/
theorem replace_placeholders_lookup_semantics :
    (∀ content : String, replace_placeholders content [] = content) ∧
    replace_placeholders "Hello \x7b\x7bname\x7d\x7d" [] = "Hello \x7b\x7bname\x7d\x7d" ∧
    (∀ (k : String) (data : List (String × JVal)) (v : String),
      k ≠ "" → (∀ c ∈ k.data, c ≠ '}') →
      lookupStr (data.map (fun p => (p.1, pyStr p.2))) k = some v →
      replace_placeholders ("\x7b\x7b" ++ k ++ "\x7d\x7d") data = v) ∧
    (∀ (pre k post : String) (data : List (String × JVal)),
      (∀ c ∈ pre.data, c ≠ '{') → k ≠ "" → (∀ c ∈ k.data, c ≠ '}') →
      lookupStr (data.map (fun p => (p.1, pyStr p.2))) k = none →
      replace_placeholders (pre ++ "\x7b\x7b" ++ k ++ "\x7d\x7d" ++ post) data
        = pre ++ "\x7b\x7b" ++ k ++ "\x7d\x7d" ++ replace_placeholders post data) := by
  refine ⟨?_, by rfl, ?_, ?_⟩
  · intro content
    unfold replace_placeholders
    simp only [List.map_nil]
    rw [substChars_empty_data]
  · intro k data v hne hnb hlook
    have hkd : k.data ≠ [] := by
      cases k with
      | mk d =>
        intro h
        simp only at h
        subst h
        exact hne rfl
    have hdata : ("\x7b\x7b" ++ k ++ "\x7d\x7d").data
        = '{' :: '{' :: (k.data ++ '}' :: '}' :: ([] : List Char)) := by
      simp [String.data_append]
    have hm := matchPlaceholder_of_key (b := []) hkd hnb
    unfold replace_placeholders
    rw [hdata]
    show String.mk (substChars (data.map fun p => (p.1, pyStr p.2))
        (('{' :: '{' :: (k.data ++ '}' :: '}' :: ([] : List Char))).length)
        ('{' :: '{' :: (k.data ++ '}' :: '}' :: ([] : List Char)))) = v
    have hlen : ('{' :: '{' :: (k.data ++ '}' :: '}' :: ([] : List Char))).length
        = (k.data.length + 3) + 1 := by simp
    rw [hlen, substChars_cons_match hm]
    have hk : String.mk k.data = k := by cases k; rfl
    rw [hk, hlook, substChars_nil]
    cases v
    simp
  · intro pre k post data hpre hne hnb hlook
    have hkd : k.data ≠ [] := by
      cases k with
      | mk kd =>
        intro h
        simp only at h
        subst h
        exact hne rfl
    have hdata : (pre ++ "\x7b\x7b" ++ k ++ "\x7d\x7d" ++ post).data
        = pre.data ++ ('{' :: '{' :: (k.data ++ '}' :: '}' :: post.data)) := by
      simp [String.data_append]
    have hm := matchPlaceholder_of_key (b := post.data) hkd hnb
    unfold replace_placeholders
    rw [hdata]
    show String.mk (substChars (data.map fun p => (p.1, pyStr p.2))
        ((pre.data ++ ('{' :: '{' :: (k.data ++ '}' :: '}' :: post.data))).length)
        (pre.data ++ ('{' :: '{' :: (k.data ++ '}' :: '}' :: post.data))))
      = pre ++ "\x7b\x7b" ++ k ++ "\x7d\x7d" ++ replace_placeholders post data
    rw [substChars_append_nonbrace _ pre.data _ _ hpre (by simp)]
    have hsub : (pre.data ++ ('{' :: '{' :: (k.data ++ '}' :: '}' :: post.data))).length
        - pre.data.length = (k.data.length + 3 + post.data.length) + 1 := by
      simp
      omega
    rw [hsub, substChars_cons_match hm]
    have hk : String.mk k.data = k := by cases k; rfl
    rw [hk, hlook]
    rw [substChars_fuel_irrel (data.map fun p => (p.1, pyStr p.2))
      (k.data.length + 3 + post.data.length) post.data.length post.data (by omega) (le_refl _)]
    apply String.ext
    simp [replace_placeholders, String.data_append]

/-- C7: for a decoded audio of `d` ms and a positive configured segment
duration `s` ms, the splitter returns one chunk holding the whole audio when
`d ≤ s`; when `d > s` it returns consecutive chunks at offsets `0, s, 2·s, …`
(`⌈d/s⌉` of them), each of exactly `s` ms except the final chunk, whose
length is `d % s` when that is nonzero and `s` otherwise. -/
theorem split_audio_chunk_boundaries (d s : Nat) (hs : 0 < s) :
    (d ≤ s → split_audio_for_whisper d s = .ok [(0, d)]) ∧
    (s < d → ∃ chunks, split_audio_for_whisper d s = .ok chunks ∧
      chunks.length = (d + s - 1) / s ∧
      (∀ (j : Nat) (hj : j < chunks.length), (chunks.get ⟨j, hj⟩).1 = j * s) ∧
      (∀ (j : Nat) (hj : j < chunks.length),
        j + 1 < chunks.length → (chunks.get ⟨j, hj⟩).2 = s) ∧
      ∀ (hne : chunks ≠ []),
        (chunks.getLast hne).2 = if d % s = 0 then s else d % s) := by
  constructor
  · intro hds
    unfold split_audio_for_whisper
    have h1 : ¬ (d > s) := by omega
    simp [h1]
  · intro hsd
    have hd0 : d ≠ 0 := by omega
    obtain ⟨q, r, hrs, hd⟩ : ∃ q r, r < s ∧ d = s * q + r :=
      ⟨d / s, d % s, Nat.mod_lt _ hs, (Nat.div_add_mod d s).symm⟩
    have hmod : d % s = r := by
      rw [hd, Nat.mul_add_mod]
      exact Nat.mod_eq_of_lt hrs
    have hn : (d + s - 1) / s = if r = 0 then q else q + 1 := by
      rw [hd]
      exact ceil_div_split s q r hs hrs
    have hq1 : 1 ≤ q := by
      rcases Nat.eq_zero_or_pos q with h | h
      · rw [h, Nat.mul_zero] at hd
        omega
      · exact h
    refine ⟨(List.range ((d + s - 1) / s)).map
      (fun j => (j * s, min (j * s + s) d - j * s)), ?_, by simp, ?_, ?_, ?_⟩
    · unfold split_audio_for_whisper
      rw [pyRange_eq d s hs]
      simp only [if_pos (show d > s from hsd), List.map_map]
      rw [if_neg (by simp [hd0])]
      rfl
    · intro j hj
      simp
    · intro j hj hj1
      simp only [List.length_map, List.length_range] at hj hj1
      have hle : j * s + s ≤ d := by
        have h2 : (j + 1) * s ≤ q * s := by
          refine Nat.mul_le_mul_right s ?_
          rw [hn] at hj1
          by_cases h0 : r = 0
          · rw [if_pos h0] at hj1; omega
          · rw [if_neg h0] at hj1; omega
        have h3 : q * s ≤ d := by
          rw [hd, Nat.mul_comm q s]
          omega
        calc j * s + s = (j + 1) * s := by ring
          _ ≤ q * s := h2
          _ ≤ d := h3
      simp only [List.get_eq_getElem, List.getElem_map, List.getElem_range]
      rw [Nat.min_eq_left hle]
      omega
    · intro hne
      have hlen : ((List.range ((d + s - 1) / s)).map
          (fun j => (j * s, min (j * s + s) d - j * s))).length = (d + s - 1) / s := by
        simp
      have hpos : 0 < (d + s - 1) / s := by
        rw [hn]
        by_cases h0 : r = 0
        · rw [if_pos h0]; omega
        · rw [if_neg h0]; omega
      rw [List.getLast_eq_getElem, hmod]
      simp only [List.get_eq_getElem, hlen, List.getElem_map, List.getElem_range]
      by_cases h0 : r = 0
      · rw [if_pos h0, hn, if_pos h0]
        have hrel : (q - 1) * s + s = q * s := by
          have h : q - 1 + 1 = q := by omega
          calc (q - 1) * s + s = (q - 1 + 1) * s := by ring
            _ = q * s := by rw [h]
        have hdq : d = q * s := by
          rw [hd, h0, Nat.mul_comm s q, Nat.add_zero]
        rw [hrel, ← hdq, Nat.min_self]
        obtain ⟨B, hB⟩ : ∃ B, B = (q - 1) * s := ⟨_, rfl⟩
        rw [← hB]
        have : B + s = d := by rw [hB, hrel, ← hdq]
        omega
      · rw [if_neg h0, hn, if_neg h0]
        simp only [Nat.add_sub_cancel]
        have hlt : d < q * s + s := by
          rw [hd, Nat.mul_comm q s]
          obtain ⟨A, hA⟩ : ∃ A, A = s * q := ⟨_, rfl⟩
          rw [← hA]
          omega
        rw [Nat.min_eq_right (by omega)]
        rw [hd, Nat.mul_comm q s]
        obtain ⟨A, hA⟩ : ∃ A, A = s * q := ⟨_, rfl⟩
        rw [← hA]
        omega

/-- Witness for `replace_placeholders_lookup_semantics` at concrete inputs:
the empty-map identity, a hit, and an unknown-key pass-through over a
nonempty map. -/
theorem replace_placeholders_lookup_semantics_witness :
    replace_placeholders "Hello \x7b\x7bname\x7d\x7d" [] = "Hello \x7b\x7bname\x7d\x7d" ∧
    replace_placeholders "\x7b\x7bx\x7d\x7d" [("x", .s "42")] = "42" ∧
    replace_placeholders ("Hello " ++ "\x7b\x7b" ++ "name" ++ "\x7d\x7d" ++ "") [("x", .s "1")]
      = "Hello " ++ "\x7b\x7b" ++ "name" ++ "\x7d\x7d" ++ replace_placeholders "" [("x", .s "1")] :=
  ⟨replace_placeholders_lookup_semantics.1 "Hello \x7b\x7bname\x7d\x7d",
   replace_placeholders_lookup_semantics.2.2.1 "x" [("x", .s "42")] "42"
     (by decide) (by decide) (by decide),
   replace_placeholders_lookup_semantics.2.2.2 "Hello " "name" "" [("x", .s "1")]
     (by decide) (by decide) (by decide) (by decide)⟩

/-- C5 (evaluation of the code at the claim's failing input): an audio that
decodes to 0 ms is not rejected for any positive segment duration — the
else-branch of `_split_audio_for_whisper` always appends one (here empty)
segment, so `processed_segments` is nonempty and the empty-audio guard at the
end of the function never fires. -/
theorem split_audio_zero_duration_single_chunk (s : Nat) (hs : 0 < s) :
    split_audio_for_whisper 0 s = .ok [(0, 0)] := by
  unfold split_audio_for_whisper
  have h1 : ¬ (0 > s) := by omega
  simp [h1]

/-- Witness for `split_audio_zero_duration_single_chunk` at the configured
90,000 ms segment duration. -/
theorem split_audio_zero_duration_single_chunk_witness :
    0 < 90000 ∧ split_audio_for_whisper 0 90000 = .ok [(0, 0)] :=
  ⟨by decide, split_audio_zero_duration_single_chunk 90000 (by decide)⟩

/-- Witness for `split_audio_chunk_boundaries`: 90,000 ms at a 90,000 ms
segment duration is one chunk; 90,001 ms splits into 90,000 ms + 1 ms. -/
theorem split_audio_chunk_boundaries_witness :
    split_audio_for_whisper 90000 90000 = .ok [(0, 90000)] ∧
    split_audio_for_whisper 90001 90000 = .ok [(0, 90000), (90000, 1)] :=
  ⟨(split_audio_chunk_boundaries 90000 90000 (by decide)).1 (by decide),
   by rfl⟩

/-- C2: for every sequence of agent-service operations (create, update,
delete) starting from a state in which at most one row is both default and
active, the predicate "at most one `AIAgentConfiguration` row has
`is_default = true` among rows with `is_active = true`" holds again after
each operation completes (whether the call succeeded or raised): every
successful commit is checked against the table's exclusion constraint, and
every failed call leaves the last committed state in place. -/
theorem agent_ops_preserve_single_active_default (s : AgentsDB) (ops : List AgentOp)
    (h : activeDefaultCount s ≤ 1) :
    activeDefaultCount (runAgentOps s ops) ≤ 1 := by
  induction ops generalizing s with
  | nil => exact h
  | cons op rest ih =>
    have hstep : activeDefaultCount (agentStep s op) ≤ 1 := by
      rcases stOk_agentStep s op with heq | hok
      · rw [heq]
        exact h
      · exact activeDefaultCount_le_of_ok hok
    exact ih (agentStep s op) hstep

/-- Witness for `agent_ops_preserve_single_active_default` on a concrete
operation sequence from the empty table. -/
theorem agent_ops_preserve_single_active_default_witness :
    activeDefaultCount [] ≤ 1 ∧
    activeDefaultCount (runAgentOps [] sampleAgentOps) ≤ 1 :=
  ⟨by decide, agent_ops_preserve_single_active_default [] sampleAgentOps (by decide)⟩

/-- C3: in a state where exactly one active agent exists and it is the
default, a patch unsetting `is_default` and a delete of that row both raise
the "cannot strand zero defaults" conflict (`ValueError` in the service) and
leave the table unchanged — the patch is not applied and the row is not
removed. -/
theorem sole_active_default_cannot_be_unset_or_deleted
    (s : AgentsDB) (a : Agent) (p : AgentPatch)
    (hn : nodupBy Agent.agent_id s = true) (ha : a ∈ s)
    (hact : a.is_active = true) (hdef : a.is_default = true)
    (honly : ∀ b ∈ s, b.is_active = true → b = a)
    (hp : p.is_default = some false) :
    update_agent s a.agent_id p = (s, .error .cannotUnsetOnlyDefault) ∧
    delete_agent s a.agent_id = (s, .error .cannotDeleteOnlyDefault) := by
  have hfind := agentById_eq_self hn ha
  have hfilter := activeFilter_eq_nil honly
  constructor
  · unfold update_agent
    simp only [hfind, hp, hdef, hfilter, List.find?_nil, if_true]
  · unfold delete_agent
    simp only [hfind, hdef, hfilter, if_true]

/-- Witness for `sole_active_default_cannot_be_unset_or_deleted` on a
one-row table. -/
theorem sole_active_default_cannot_be_unset_or_deleted_witness :
    update_agent [soleDefaultAgent] soleDefaultAgent.agent_id { is_default := some false }
      = ([soleDefaultAgent], .error .cannotUnsetOnlyDefault) ∧
    delete_agent [soleDefaultAgent] soleDefaultAgent.agent_id
      = ([soleDefaultAgent], .error .cannotDeleteOnlyDefault) :=
  sole_active_default_cannot_be_unset_or_deleted [soleDefaultAgent] soleDefaultAgent
    { is_default := some false } (by decide) (by decide) (by decide) (by decide)
    (by decide) (by decide)

/-- C9: (a) starting from a store in which no two compositions of one
template share an `order_index`, every sequence of composition-service
operations preserves that invariant; (b) creating a second composition for a
template with an already-used `order_index` (and a fresh section, so only the
unique index is violated) fails with the distinguishable duplicate-order
conflict and leaves the store unchanged — no row is inserted. -/
theorem composition_order_index_unique :
    (∀ (s : List TemplateSectionComposition) (ops : List CompOp),
      compOrderUnique s → compOrderUnique (runCompOps s ops)) ∧
    (∀ (s : List TemplateSectionComposition) (d : CompCreateData)
       (r : TemplateSectionComposition),
      r ∈ s → r.template_id = d.template_id → r.order_index = d.order_index →
      r.section_id ≠ d.section_id → 0 ≤ d.order_index →
      create_composition s d = (s, .error .orderIndexConflict)) := by
  constructor
  · intro s ops hs
    rw [compOrderUnique_iff] at hs ⊢
    induction ops generalizing s with
    | nil => exact hs
    | cons op rest ih => exact ih (compStep s op) (compStep_preserves_orderUnique hs)
  · intro s d r hr htid hord hsec hvalid
    have hdup : orderIndexDup (s ++ [d.toRow]) = true := by
      unfold orderIndexDup
      exact hasDupBy_append_mem hr (by
        rw [Prod.mk.injEq]
        exact ⟨htid, hord⟩)
    unfold create_composition repoCreateComposition
    rw [if_neg (by omega), if_pos hdup]

/-- Witness for `composition_order_index_unique`: a concrete operation
sequence from the empty store, and the concrete order-index clash. -/
theorem composition_order_index_unique_witness :
    compOrderUnique (runCompOps [] sampleCompOps) ∧
    create_composition [compRow0] compClash = ([compRow0], .error .orderIndexConflict) :=
  ⟨composition_order_index_unique.1 [] sampleCompOps (by constructor),
   composition_order_index_unique.2 [compRow0] compClash compRow0
     (by decide) (by decide) (by decide) (by decide) (by decide)⟩

/-- C4: every successful `create_document` call (validation passed, template
found) persists an empty `text_content`, whatever the template, sections,
compositions and dynamic data are: the template dump has no `base_content`
key, so assembly starts from `""`; each composition dump lacks the
`template_section_id` key the loop reads, so no section is ever appended;
and placeholder substitution over `""` is `""`. -/
theorem create_document_text_content_always_empty
    (db : NotaryDB) (d : DocumentCreateData) (doc : Document)
    (h : create_document db d = .ok doc) : doc.text_content = "" := by
  unfold create_document at h
  split at h
  · exact absurd h (by simp)
  · split at h
    · exact absurd h (by simp)
    · next template htmpl =>
      have hbase : dictGetStrD template "base_content" "" = "" := by
        unfold get_template_by_id at htmpl
        obtain ⟨t, -, rfl⟩ := Option.map_eq_some'.1 htmpl
        rfl
      have hfold : (pySortedByOrderKey
            (get_compositions_by_template_id db d.template_id)).foldl
            (appendSection db) (dictGetStrD template "base_content" "")
          = dictGetStrD template "base_content" "" := by
        refine foldl_const _ ?_ _
        intro x hx a
        refine appendSection_noop ?_
        have hx2 := mem_of_mem_pySorted hx
        unfold get_compositions_by_template_id at hx2
        obtain ⟨c, -, rfl⟩ := List.mem_map.1 hx2
        exact dictGet_compositionDump_template_section_id c
      have hfold0 := hfold.trans hbase
      simp only [hfold0] at h
      have hrepl : replace_placeholders "" d.dynamic_data = "" := rfl
      rw [hrepl] at h
      have hdoc := Except.ok.inj h
      rw [← hdoc]

/-- Witness for `create_document_text_content_always_empty` at the
assembly-scenario fixture. -/
theorem create_document_text_content_always_empty_witness :
    create_document assemblyDb assemblyInput = .ok assemblyResult ∧
    assemblyResult.text_content = "" :=
  ⟨by rfl,
   create_document_text_content_always_empty assemblyDb assemblyInput assemblyResult (by rfl)⟩

/-- C1 (evaluation of the code at the claim's scenario): for the template
with two compositions `(0 → section "\x7b\x7bx\x7d\x7d")`, `(1 → section "fixed")` and
`dynamic_data = \x7b"x": "42"\x7d`, the persisted `text_content` is `""`, not the
assembled `"A:\n42\nfixed"` the specification describes (the `Template`
entity has no base-content column at all, and the dump keys the assembly
code reads are never present). -/
theorem create_document_assembly_scenario_result :
    create_document assemblyDb assemblyInput = .ok assemblyResult ∧
    assemblyResult.text_content = "" ∧ "" ≠ "A:\n42\nfixed" :=
  ⟨by rfl, by rfl, by decide⟩

/-- C6 (evaluation of the code at the claim's inputs): with a `code` and a
stashed next destination the callback stores both tokens and redirects; with
a `code` but no stashed destination it still stores both tokens but then
falls through to the plain-text "Authorization failed" 400 response; with no
`code` it responds 400 and the session keeps its contents. -/
theorem oidc_callback_outcomes :
    oidc_callback sampleTokenExchange (some "abc") nextStashedSession
      = ({ access_token := some "access-abc", refresh_token := some "refresh-abc",
           next_url := none }, .redirect "/home") ∧
    oidc_callback sampleTokenExchange (some "abc") emptyOidcSession
      = ({ access_token := some "access-abc", refresh_token := some "refresh-abc",
           next_url := none }, .plainText "Authorization failed" 400) ∧
    oidc_callback sampleTokenExchange none nextStashedSession
      = (nextStashedSession, .plainText "Authorization failed" 400) :=
  ⟨rfl, rfl, rfl⟩

/-- Whenever `TranscribeService.transcribe_audio` succeeds, the persisted
row's `created_by` is the `user_id` it was given and the original was
uploaded under `audios/\x7buser_id\x7d/\x7bgenerated_filename\x7d`. -/
theorem transcribe_service_created {env : TranscribeEnv} {fname user_id : String}
    {aid : Option Nat} {t : Transcription} {blob : String}
    (h : transcribe_service env fname user_id aid = .ok (t, blob)) :
    t.created_by = user_id ∧
    blob = "audios/" ++ user_id ++ "/" ++ (env.generated_uuid ++ "_" ++ fname) := by
  unfold transcribe_service at h
  split at h
  · exact absurd h (by simp)
  · split at h
    · exact absurd h (by simp)
    · split at h
      · exact absurd h (by simp)
      · split at h
        · exact absurd h (by simp)
        · have hp := Except.ok.inj h
          have h1 := congrArg Prod.fst hp
          have h2 := congrArg Prod.snd hp
          simp only at h1 h2
          constructor
          · rw [← h1]
          · rw [← h2]

/-- C10: every `POST /api/transcribe` request that results in a created
transcription used the hard-coded development user id
`a1b2c3d4-e5f6-7890-1234-567890abcdef` — regardless of the caller — so the
row's `created_by` equals that constant and the uploaded original is stored
under `audios/a1b2c3d4-e5f6-7890-1234-567890abcdef/\x7bgenerated_filename\x7d`. -/
theorem transcribe_route_uses_fixed_user_id
    (env : TranscribeEnv) (req : TranscribeRequest) (t : Transcription) (blob_name : String)
    (h : transcribe_controller env req = .created t blob_name) :
    t.created_by = "a1b2c3d4-e5f6-7890-1234-567890abcdef" ∧
    blob_name = "audios/a1b2c3d4-e5f6-7890-1234-567890abcdef/"
      ++ (env.generated_uuid ++ "_" ++ req.filename) := by
  unfold transcribe_controller at h
  split at h
  · exact absurd h (by simp)
  · split at h
    · exact absurd h (by simp)
    · split at h
      · exact absurd h (by simp)
      · split at h
        · next t0 b0 heq =>
            have hp := TranscribeOutcome.created.inj h
            obtain ⟨rfl, rfl⟩ := hp
            have hsvc := transcribe_service_created heq
            refine ⟨hsvc.1, ?_⟩
            rw [hsvc.2]
            rfl
        · exact absurd h (by simp)
        · exact absurd h (by simp)

/-- Witness for `transcribe_route_uses_fixed_user_id` on the sample
environment and request. -/
theorem transcribe_route_uses_fixed_user_id_witness :
    ∃ t blob_name, transcribe_controller sampleTranscribeEnv sampleTranscribeRequest
        = .created t blob_name ∧
      t.created_by = "a1b2c3d4-e5f6-7890-1234-567890abcdef" ∧
      blob_name = "audios/a1b2c3d4-e5f6-7890-1234-567890abcdef/"
        ++ (sampleTranscribeEnv.generated_uuid ++ "_" ++ sampleTranscribeRequest.filename) := by
  refine ⟨_, _, rfl, ?_⟩
  exact transcribe_route_uses_fixed_user_id sampleTranscribeEnv sampleTranscribeRequest _ _ rfl

end NotaryBackend
